import Mathlib

/-!
Shallow embedding of the socket abstraction core of ext/socket/socket.c
(address codec, name-resolution bridge, socket lifecycle syscall wrappers)
and proofs about its behaviour.

Platform model: Linux/glibc, little-endian, with IPv6 (INET6) and
UNIX-domain sockets (HAVE_SYS_UN_H) enabled.  Byte buffers (the content of
the Ruby strings holding packed sockaddr structures) are lists of bytes,
each a Nat below 256.  A Ruby string buffer is always followed by a hidden
NUL byte, so C reads one past the end of the data sees 0; reads further out
of bounds never happen on the paths the claims touch.
-/

namespace RSocket

deriving instance DecidableEq for Except

/-- AF_UNIX on Linux. -/
def AF_UNIX : Nat := 1
/-- AF_INET on Linux. -/
def AF_INET : Nat := 2
/-- AF_INET6 on Linux. -/
def AF_INET6 : Nat := 10
/-- errno ENFILE on Linux. -/
def ENFILE : Nat := 23
/-- errno EMFILE on Linux. -/
def EMFILE : Nat := 24
/-- errno EINPROGRESS on Linux. -/
def EINPROGRESS : Nat := 115

/-- sizeof(struct sockaddr_un) on Linux: 2 bytes sun_family + 108 bytes sun_path. -/
def sizeof_sockaddr_un : Nat := 110
/-- sizeof(((struct sockaddr_un *)0)->sun_path) on Linux. -/
def sizeof_sun_path : Nat := 108

/--
The Ruby exception raised by an operation of the core, by exception class:
argError is rb_eArgError, typeError rb_eTypeError, rangeError rb_eRangeError,
socketError rb_eSocket, syscallError is rb_sys_fail (an Errno exception
carrying the failing syscall name and the errno), resolutionError is
raise_socket_error (a SocketError carrying the resolver function name and
the resolver error code).
-/
inductive SockErr where
  | argError (msg : String)
  | typeError (msg : String)
  | rangeError (msg : String)
  | socketError (msg : String)
  | syscallError (syscall : String) (errno : Nat)
  | resolutionError (fn : String) (code : Nat)
deriving DecidableEq, Repr

/--
Reading the sa_family field of a packed sockaddr buffer: sa_family_t is a
16-bit little-endian integer at offset 0 on this platform.  A one-byte
buffer is followed by the hidden NUL of the Ruby string, so the high byte
reads as 0; the empty buffer is never consulted for its family on the
modelled paths, 0 stands for the indeterminate read.
-/
def famOf : List Nat → Nat
  | b0 :: b1 :: _ => b0 + 256 * b1
  | [b0] => b0
  | [] => 0

/-- The two little-endian bytes of a 16-bit family value. -/
def famBytes (f : Nat) : List Nat := [f % 256, f / 256 % 256]

/--
sock_s_unpack_sockaddr_in (socket.c:1284).  Checks that the buffer can
carry the sa_family field (offsetof(sa_family) + sizeof(sa_family) = 2
bytes), then that the family is AF_INET or AF_INET6, then decodes port
(sin_port, network byte order at offset 2) and numeric host.
make_ipaddr is modelled from the spec: the numeric address form of the
decoded Address is represented by the raw address bytes (sin_addr at
offset 4 for AF_INET, sin6_addr at offset 8 for AF_INET6).
-/
def sock_s_unpack_sockaddr_in (addr : List Nat) :
    Except SockErr (Nat × List Nat) :=
  if addr.length < 2 then
    .error (.argError "too short sockaddr")
  else if famOf addr ≠ AF_INET ∧ famOf addr ≠ AF_INET6 then
    .error (.argError "not an AF_INET/AF_INET6 sockaddr")
  else
    let port := (addr.getD 2 0) * 256 + addr.getD 3 0
    let host := if famOf addr = AF_INET6 then (addr.drop 8).take 16
                else (addr.drop 4).take 4
    .ok (port, host)

/--
sock_sockaddr (socket.c:873): extracts the raw address bytes of a
sockaddr for a host record; raises a SocketError for any family other
than AF_INET and AF_INET6.
-/
def sock_sockaddr (addr : List Nat) : Except SockErr (List Nat) :=
  if famOf addr = AF_INET then .ok ((addr.drop 4).take 4)
  else if famOf addr = AF_INET6 then .ok ((addr.drop 8).take 16)
  else .error (.socketError "unknown socket family")

/--
sock_s_pack_sockaddr_un (socket.c:1324).  StringValueCStr raises an
ArgumentError when the path has an embedded NUL byte; otherwise the
structure is zero-filled, sun_family is set to AF_UNIX and the path is
copied into sun_path with strncpy bounded by sizeof(sun_path)-1, after
checking strlen(path) < sizeof(sun_path).  The packed string is the whole
structure (sizeof(struct sockaddr_un) bytes).
-/
def sock_s_pack_sockaddr_un (path : List Nat) : Except SockErr (List Nat) :=
  if 0 ∈ path then
    .error (.argError "string contains null byte")
  else if sizeof_sun_path ≤ path.length then
    .error (.argError "too long unix socket path")
  else
    .ok (famBytes AF_UNIX ++ path ++ List.replicate (sizeof_sun_path - path.length) 0)

/--
sock_s_unpack_sockaddr_un (socket.c:1357).  Checks the buffer can carry
sa_family, that the family is AF_UNIX, and that the buffer is not longer
than sizeof(struct sockaddr_un).  unixpath is modelled from the spec
(raddrinfo.c is not part of this tree): it returns the sun_path field
(offset 2) when the buffer extends past that offset and a static empty
string otherwise; reading the path as a C string stops at the first NUL
byte, or at the hidden NUL terminating the Ruby string buffer, so an
unterminated path that fills the remaining field is the whole field.
The sun_path-not-NUL-terminated ArgumentError fires exactly when the
buffer has the canonical size, unixpath returned the sun_path field
itself, and strlen runs to the very end of the buffer.
-/
def sock_s_unpack_sockaddr_un (addr : List Nat) : Except SockErr (List Nat) :=
  if addr.length < 2 then
    .error (.argError "too short sockaddr")
  else if famOf addr ≠ AF_UNIX then
    .error (.argError "not an AF_UNIX sockaddr")
  else if sizeof_sockaddr_un < addr.length then
    .error (.typeError "too long sockaddr_un")
  else
    let sun_path_is_field := 2 < addr.length
    let pathBytes := (addr.drop 2).takeWhile (fun b => b ≠ 0)
    if addr.length = sizeof_sockaddr_un ∧ sun_path_is_field ∧
        2 + pathBytes.length = addr.length then
      .error (.argError "sockaddr_un.sun_path not NUL terminated")
    else
      .ok (if sun_path_is_field then pathBytes else [])

/--
The outcome of one issue of a syscall returning a file descriptor pair
(socketpair(2)): either two descriptors or a failure with an errno.
-/
inductive SpOutcome where
  | ok (fd1 fd2 : Nat)
  | err (errno : Nat)
deriving DecidableEq, Repr

/-- The outcome of one issue of a scalar-returning syscall. -/
inductive SysOutcome where
  | ok (v : Nat)
  | err (errno : Nat)
deriving DecidableEq, Repr

/--
Result of Socket.pair: the value or raised error, together with the number
of socketpair syscalls issued and the number of rb_gc resource-reclaim
runs performed.
-/
structure SpResult where
  result : Except SockErr (Nat × Nat)
  syscalls : Nat
  gcRuns : Nat
deriving DecidableEq, Repr

/-- Result of a single-syscall operation, with the number of syscalls issued. -/
structure OpResult where
  result : Except SockErr Nat
  syscalls : Nat
deriving DecidableEq, Repr

/--
sock_s_socketpair (socket.c:93).  The OS is an oracle giving the outcome
of the n-th socketpair(2) issue.  On EMFILE or ENFILE from the first
issue, rb_gc is run once and the syscall reissued once; a second failure,
or any other errno on the first issue, raises the Errno exception of
rb_sys_fail("socketpair(2)").
-/
def sock_s_socketpair (sys : Nat → SpOutcome) : SpResult :=
  match sys 0 with
  | .ok a b => ⟨.ok (a, b), 1, 0⟩
  | .err e =>
    if e = EMFILE ∨ e = ENFILE then
      match sys 1 with
      | .ok a b => ⟨.ok (a, b), 2, 1⟩
      | .err e2 => ⟨.error (.syscallError "socketpair(2)" e2), 2, 1⟩
    else ⟨.error (.syscallError "socketpair(2)" e), 1, 0⟩

/--
sock_initialize (socket.c:38).  Modelled from the spec: ruby_socket is
not part of this tree; per the spec, create issues the socket(2) syscall
and fails with a SyscallError on any negative descriptor, with no
built-in retry (§4.4: the socketpair retry is the only one).
-/
def sock_initialize (sys : Nat → SysOutcome) : OpResult :=
  match sys 0 with
  | .ok fd => ⟨.ok fd, 1⟩
  | .err e => ⟨.error (.syscallError "socket(2)" e), 1⟩

/--
sock_bind (socket.c:388): one bind(2) issue; a negative return raises,
success returns 0.
-/
def sock_bind (sys : Nat → SysOutcome) : OpResult :=
  match sys 0 with
  | .ok _ => ⟨.ok 0, 1⟩
  | .err e => ⟨.error (.syscallError "bind(2)" e), 1⟩

/--
sock_listen (socket.c:471): one listen(2) issue; a negative return
raises, success returns 0.
-/
def sock_listen (sys : Nat → SysOutcome) : OpResult :=
  match sys 0 with
  | .ok _ => ⟨.ok 0, 1⟩
  | .err e => ⟨.error (.syscallError "listen(2)" e), 1⟩

/-- The descriptor state the core tracks: its O_NONBLOCK flag. -/
structure FdState where
  nonblock : Bool
deriving DecidableEq, Repr

/--
sock_connect_nonblock (socket.c:291).  rb_io_set_nonblock marks the
descriptor O_NONBLOCK, then connect(2) is issued once (the oracle sees
the O_NONBLOCK flag in force at the time of the call and the attempt
number).  Any negative return, whatever the errno — EINPROGRESS
included — raises the Errno exception of rb_sys_fail("connect(2)");
a non-negative return n is returned as the value (0 for connect).
-/
def sock_connect_nonblock (_st : FdState) (sys : Bool → Nat → SysOutcome) :
    FdState × OpResult :=
  let st2 : FdState := ⟨true⟩
  match sys st2.nonblock 0 with
  | .ok n => (st2, ⟨.ok n, 1⟩)
  | .err e => (st2, ⟨.error (.syscallError "connect(2)" e), 1⟩)

/--
The consistency loop of sock_s_getnameinfo (socket.c:1218): after the
head candidate of the getaddrinfo expansion resolved to the pair hp,
every further candidate is resolved with rb_getnameinfo; a resolver
failure raises through raise_socket_error("getnameinfo", error), and a
pair differing from hp raises the SocketError
"sockaddr resolved to multiple nodename".  When every candidate agrees,
hp is returned.
-/
def getnameinfoLoop {α β : Type} [DecidableEq β]
    (nameOf : α → Except Nat β) (hp : β) : List α → Except SockErr β
  | [] => .ok hp
  | r :: rs =>
    match nameOf r with
    | .error e => .error (.resolutionError "getnameinfo" e)
    | .ok hp2 =>
      if hp2 ≠ hp then .error (.socketError "sockaddr resolved to multiple nodename")
      else getnameinfoLoop nameOf hp rs

/--
sock_s_getnameinfo (socket.c:1118), array-input path, from the point
where rb_getaddrinfo succeeded: the expansion is a non-empty candidate
list (head first, then the ai_next chain), nameOf is the rb_getnameinfo
oracle taking a candidate to its (hostname, service) pair or a resolver
error code.  The head is resolved first; a failure raises through
raise_socket_error("getnameinfo", error); then every remaining candidate
must agree with the head.
-/
def sock_s_getnameinfo {α β : Type} [DecidableEq β]
    (nameOf : α → Except Nat β) (first : α) (rest : List α) :
    Except SockErr β :=
  match nameOf first with
  | .error e => .error (.resolutionError "getnameinfo" e)
  | .ok hp => getnameinfoLoop nameOf hp rest

/-- ULONG_MAX for a 64-bit unsigned long. -/
def ULONG_MAX : Nat := 2 ^ 64 - 1

/-- isspace of the C locale. -/
def isCSpace (c : Char) : Bool :=
  c = ' ' || c = '\t' || c = '\n' || c = '\x0b' || c = '\x0c' || c = '\r'

/-- Octal digit test. -/
def isOctDigit (c : Char) : Bool := '0' ≤ c && c ≤ '7'

/-- Hexadecimal digit test. -/
def isHexDigitC (c : Char) : Bool :=
  (('0' ≤ c && c ≤ '9') || ('a' ≤ c && c ≤ 'f') || ('A' ≤ c && c ≤ 'F'))

/-- Value of a digit character in bases up to 16. -/
def digitVal (c : Char) : Nat :=
  if '0' ≤ c && c ≤ '9' then c.toNat - 48
  else if 'a' ≤ c && c ≤ 'f' then c.toNat - 87
  else if 'A' ≤ c && c ≤ 'F' then c.toNat - 55
  else 0

/--
Result of strtoul: the unsigned long value, and the offset of the end
pointer from the start of the string (0 when no conversion was performed,
since then strtoul sets the end pointer back to the start).
-/
structure CParse where
  val : Nat
  endPos : Nat
deriving DecidableEq, Repr

/--
strtoul(s, &end, 0) of C: leading C-locale whitespace, an optional sign,
then a numeral in a base chosen by the prefix — hexadecimal after 0x/0X
with at least one following hex digit, octal after a leading 0, decimal
otherwise.  No digits at all leaves the end pointer at the start.  A
value beyond ULONG_MAX is clamped to ULONG_MAX; a minus sign negates the
value in unsigned long arithmetic.
-/
def strtoul0 (s : List Char) : CParse :=
  let ws := (s.takeWhile isCSpace).length
  let s1 := s.drop ws
  let signLen : Nat := if s1.head? = some '-' ∨ s1.head? = some '+' then 1 else 0
  let neg : Bool := s1.head? = some '-'
  let s2 := s1.drop signLen
  let hex : Bool := s2.head? = some '0' &&
    (s2[1]? = some 'x' || s2[1]? = some 'X') &&
    (s2[2]?.map isHexDigitC).getD false
  let oct : Bool := !hex && s2.head? = some '0'
  let prefixLen : Nat := if hex then 2 else 0
  let base : Nat := if hex then 16 else if oct then 8 else 10
  let dig : Char → Bool := if hex then isHexDigitC
    else if oct then isOctDigit else fun c => '0' ≤ c && c ≤ '9'
  let digits := (s2.drop prefixLen).takeWhile dig
  if digits.isEmpty then ⟨0, 0⟩
  else
    let raw := digits.foldl (fun a c => a * base + digitVal c) 0
    let v := if ULONG_MAX < raw then ULONG_MAX
      else if neg then (2 ^ 64 - raw) % 2 ^ 64 else raw
    ⟨v, ws + signLen + prefixLen + digits.length⟩

/-- Conversion of an unsigned long value to a C int (32-bit, wrapping). -/
def int32ofUlong (v : Nat) : Int :=
  let m : Nat := v % 2 ^ 32
  if m < 2 ^ 31 then (m : Int) else (m : Int) - 2 ^ 32

/-- The default protocol name. -/
def tcp : List Char := ['t', 'c', 'p']

/--
sock_s_getservbyname (socket.c:984).  The service database is an oracle
from (service name, protocol name) to the registered port number — the
composition of getservbyname(3) with the ntohs the code applies to
s_port.  The protocol name defaults to "tcp".  On a database miss the
name is parsed by STRTOUL(servicename, &end, 0); trailing unconsumed
characters raise the SocketError "no such service"; otherwise the parsed
unsigned long, converted to the C int the code stores it in, is the
result.
-/
def sock_s_getservbyname (db : List Char → List Char → Option Nat)
    (service : List Char) (proto : Option (List Char)) :
    Except SockErr Int :=
  let protoname := proto.getD tcp
  match db service protoname with
  | some p => .ok (p : Int)
  | none =>
    let r := strtoul0 service
    if r.endPos ≠ service.length then
      .error (.socketError "no such service")
    else
      .ok (int32ofUlong r.val)

/-- htons on a little-endian platform: byte swap of a 16-bit value. -/
def htons16 (n : Nat) : Nat := n % 256 * 256 + n / 256 % 256

/--
sock_s_getservbyport (socket.c:1025).  portnum is the NUM2LONG of the
port argument; the guard portnum != (uint16_t)portnum raises a
RangeError (message naming the direction of the overflow) before any
database access.  The database is an oracle from (port key, protocol
name) to the service name, keyed exactly as the code keys
getservbyport(3): by (int)htons((uint16_t)portnum).  The protocol name
defaults to "tcp"; a database miss raises the SocketError
"no such service for port" — there is no literal fallback here.
-/
def sock_s_getservbyport (db : Nat → List Char → Option (List Char))
    (port : Int) (proto : Option (List Char)) :
    Except SockErr (List Char) :=
  if port ≠ port % 65536 then
    .error (.rangeError (if 0 < port then "integer too big to convert into int16_t"
      else "integer too small to convert into int16_t"))
  else
    let protoname := proto.getD tcp
    match db (htons16 port.toNat) protoname with
    | some name => .ok name
    | none => .error (.socketError "no such service for port")

/--
struct hostent as the code reads it: official name, alias list, address
family, address list.
-/
structure Hostent where
  h_name : List Char
  h_aliases : List (List Char)
  h_addrtype : Int
  h_addr_list : List (List Nat)
deriving DecidableEq, Repr

/--
sock_s_gethostbyaddr (socket.c:921).  The family t defaults to AF_INET;
an explicit family argument overrides it through family_arg (an oracle
here, since the constant table lives outside this tree); with no family
argument and INET6 defined, an address string of exactly 16 bytes infers
AF_INET6.  gethostbyaddr(3) is an oracle from (address bytes, family) to
the host entry; a NULL result raises a SocketError.
-/
def sock_s_gethostbyaddr {φ : Type} (famArg : φ → Int)
    (gha : List Nat → Int → Option Hostent)
    (addr : List Nat) (family : Option φ) : Except SockErr Hostent :=
  let t : Int := match family with
    | some f => famArg f
    | none => if addr.length = 16 then (AF_INET6 : Int) else (AF_INET : Int)
  match gha addr t with
  | some h => .ok h
  | none => .error (.socketError "host not found")

/-! ## Helper lemmas -/

theorem length_takeWhile_eq_length_iff {α : Type} {p : α → Bool} {l : List α} :
    (l.takeWhile p).length = l.length ↔ ∀ b ∈ l, p b := by
  constructor
  · intro h b hb
    have heq : l.takeWhile p = l := (List.takeWhile_prefix p).eq_of_length h
    have hb2 : b ∈ l.takeWhile p := by rw [heq]; exact hb
    exact List.mem_takeWhile_imp hb2
  · intro h
    rw [List.takeWhile_eq_self_iff.mpr h]

theorem unpack_un_eq (addr : List Nat) (h2 : ¬ addr.length < 2)
    (hfam : ¬ famOf addr ≠ AF_UNIX)
    (hlen : ¬ sizeof_sockaddr_un < addr.length) :
    sock_s_unpack_sockaddr_un addr =
      if addr.length = sizeof_sockaddr_un ∧ 2 < addr.length ∧
          2 + ((addr.drop 2).takeWhile (fun b => b ≠ 0)).length = addr.length then
        .error (.argError "sockaddr_un.sun_path not NUL terminated")
      else
        .ok (if 2 < addr.length then (addr.drop 2).takeWhile (fun b => b ≠ 0)
             else []) := by
  simp only [sock_s_unpack_sockaddr_un, if_neg h2, if_neg hfam, if_neg hlen]

theorem takeWhile_length_lt_of_exists {α : Type} {p : α → Bool} {l : List α}
    (h : ∃ b ∈ l, ¬ p b) : (l.takeWhile p).length < l.length := by
  rcases h with ⟨b, hb, hpb⟩
  rcases Nat.lt_or_ge (l.takeWhile p).length l.length with hlt | hge
  · exact hlt
  · exfalso
    have hle : (l.takeWhile p).length ≤ l.length :=
      (List.takeWhile_prefix p).length_le
    have heq : (l.takeWhile p).length = l.length := Nat.le_antisymm hle hge
    exact hpb (length_takeWhile_eq_length_iff.mp heq b hb)

/-! ## Claims -/

/--
C8: every byte buffer shorter than the two bytes needed to carry the
sa_family tag makes both decoders raise the ArgumentError
"too short sockaddr"; the functions are total, so no crash is possible.
-/
theorem C8_short_sockaddr_raises (addr : List Nat) (h : addr.length < 2) :
    sock_s_unpack_sockaddr_in addr = .error (.argError "too short sockaddr") ∧
    sock_s_unpack_sockaddr_un addr = .error (.argError "too short sockaddr") := by
  constructor <;>
    simp [sock_s_unpack_sockaddr_in, sock_s_unpack_sockaddr_un, h]

/-- Witness for C8 at the concrete one-byte buffer [2]. -/
theorem C8_short_sockaddr_raises_witness :
    sock_s_unpack_sockaddr_in [2] = .error (.argError "too short sockaddr") ∧
    sock_s_unpack_sockaddr_un [2] = .error (.argError "too short sockaddr") :=
  C8_short_sockaddr_raises [2] (by decide)

/--
C4 counterexample: the claim says a buffer with an unrecognized family
tag decodes to an opaque Address without raising; at the concrete
16-byte buffer with family tag 255 both sock_s_unpack_sockaddr_in and
sock_sockaddr raise instead of returning a value.
-/
theorem C4_unknown_family_counterexample :
    sock_s_unpack_sockaddr_in (255 :: 0 :: List.replicate 14 0) =
      .error (.argError "not an AF_INET/AF_INET6 sockaddr") ∧
    sock_sockaddr (255 :: 0 :: List.replicate 14 0) =
      .error (.socketError "unknown socket family") := by
  decide

/--
C4 amended: for every buffer long enough to carry the family tag whose
family is neither AF_INET nor AF_INET6, decode raises the ArgumentError
"not an AF_INET/AF_INET6 sockaddr" (and sock_sockaddr the SocketError
"unknown socket family") — it does not return an opaque Address.
-/
theorem C4_unknown_family_raises (addr : List Nat) (h2 : 2 ≤ addr.length)
    (hin : famOf addr ≠ AF_INET) (hin6 : famOf addr ≠ AF_INET6) :
    sock_s_unpack_sockaddr_in addr =
      .error (.argError "not an AF_INET/AF_INET6 sockaddr") ∧
    sock_sockaddr addr = .error (.socketError "unknown socket family") := by
  have hc1 : ¬ addr.length < 2 := by omega
  constructor
  · simp [sock_s_unpack_sockaddr_in, hc1, hin, hin6]
  · simp [sock_sockaddr, hin, hin6]

/-- Witness for C4 amended at the concrete buffer of family tag 255. -/
theorem C4_unknown_family_raises_witness :
    sock_s_unpack_sockaddr_in (255 :: 0 :: List.replicate 14 0) =
      .error (.argError "not an AF_INET/AF_INET6 sockaddr") ∧
    sock_sockaddr (255 :: 0 :: List.replicate 14 0) =
      .error (.socketError "unknown socket family") :=
  C4_unknown_family_raises (255 :: 0 :: List.replicate 14 0)
    (by decide) (by decide) (by decide)

/--
C2: once the guards of sock_s_unpack_sockaddr_un pass (the buffer can
carry the family tag, the family is AF_UNIX, the buffer is no longer
than the canonical structure size), the not-NUL-terminated ArgumentError
is raised if and only if the buffer is exactly sizeof(struct sockaddr_un),
the extracted path starts at the beginning of the sun_path field
(2 < length, so unixpath returned the field itself), and the path bytes
run unterminated to the very end of the buffer; a shorter buffer whose
unterminated path fills the remaining field decodes to that full field,
and a NUL-terminated path always decodes to the bytes before its first
NUL.
-/
theorem C2_unpack_un_nul_boundary (addr : List Nat)
    (h2 : 2 ≤ addr.length) (hfam : famOf addr = AF_UNIX)
    (hle : addr.length ≤ sizeof_sockaddr_un) :
    (sock_s_unpack_sockaddr_un addr =
        .error (.argError "sockaddr_un.sun_path not NUL terminated") ↔
      addr.length = sizeof_sockaddr_un ∧ 2 < addr.length ∧
        ∀ b ∈ addr.drop 2, b ≠ 0) ∧
    ((∀ b ∈ addr.drop 2, b ≠ 0) → addr.length < sizeof_sockaddr_un →
      sock_s_unpack_sockaddr_un addr = .ok (addr.drop 2)) ∧
    ((∃ b ∈ addr.drop 2, b = 0) →
      sock_s_unpack_sockaddr_un addr =
        .ok ((addr.drop 2).takeWhile (fun b => b ≠ 0))) := by
  have hred := unpack_un_eq addr (by omega) (by simp [hfam]) (by omega)
  have hdrop : (addr.drop 2).length = addr.length - 2 := List.length_drop 2 addr
  have hiff : (((addr.drop 2).takeWhile (fun b => b ≠ 0)).length
        = (addr.drop 2).length) ↔ ∀ b ∈ addr.drop 2, b ≠ 0 := by
    rw [length_takeWhile_eq_length_iff]
    simp
  refine ⟨?_, ?_, ?_⟩
  · rw [hred]
    constructor
    · intro h
      by_cases hc : addr.length = sizeof_sockaddr_un ∧ 2 < addr.length ∧
          2 + ((addr.drop 2).takeWhile (fun b => b ≠ 0)).length = addr.length
      · exact ⟨hc.1, hc.2.1, hiff.mp (by omega)⟩
      · rw [if_neg hc] at h
        exact absurd h (by simp)
    · intro ⟨hsz, hgt, hall⟩
      have hl : ((addr.drop 2).takeWhile (fun b => b ≠ 0)).length
          = (addr.drop 2).length := hiff.mpr hall
      rw [if_pos ⟨hsz, hgt, by omega⟩]
  · intro hall hlt
    have hl : ((addr.drop 2).takeWhile (fun b => b ≠ 0)).length
        = (addr.drop 2).length := hiff.mpr hall
    rw [hred, if_neg (by omega)]
    by_cases hgt : 2 < addr.length
    · rw [if_pos hgt]
      have : (addr.drop 2).takeWhile (fun b => b ≠ 0) = addr.drop 2 :=
        (List.takeWhile_prefix _).eq_of_length hl
      rw [this]
    · rw [if_neg hgt]
      have : (addr.drop 2).length = 0 := by omega
      rw [List.length_eq_zero.mp this]
  · intro hex
    have hlt : ((addr.drop 2).takeWhile (fun b => b ≠ 0)).length
        < (addr.drop 2).length := by
      apply takeWhile_length_lt_of_exists
      rcases hex with ⟨b, hb, hb0⟩
      exact ⟨b, hb, by simp [hb0]⟩
    have hgt : 2 < addr.length := by omega
    rw [hred, if_neg (by omega), if_pos hgt]

/--
Witness for C2 at concrete inputs: a 110-byte AF_UNIX buffer whose path
field holds 108 nonzero bytes raises the not-NUL-terminated
ArgumentError.
-/
theorem C2_unpack_un_nul_boundary_witness :
    sock_s_unpack_sockaddr_un (1 :: 0 :: List.replicate 108 65) =
      .error (.argError "sockaddr_un.sun_path not NUL terminated") :=
  ((C2_unpack_un_nul_boundary (1 :: 0 :: List.replicate 108 65)
      (by decide) (by decide) (by decide)).1).mpr (by decide)

/--
C3: for every UNIX path without embedded NUL of length at most
sizeof(sun_path)-1, decode of encode gives back exactly the path (the
packed buffer being the canonical zero-padded structure), and pack
raises the path-too-long ArgumentError exactly when
strlen(path) >= sizeof(sun_path).
-/
theorem C3_pack_unpack_roundtrip (path : List Nat) (hnz : 0 ∉ path) :
    (path.length < sizeof_sun_path →
      sock_s_pack_sockaddr_un path =
        .ok (famBytes AF_UNIX ++ path ++
          List.replicate (sizeof_sun_path - path.length) 0) ∧
      sock_s_unpack_sockaddr_un (famBytes AF_UNIX ++ path ++
          List.replicate (sizeof_sun_path - path.length) 0) = .ok path) ∧
    (sock_s_pack_sockaddr_un path =
        .error (.argError "too long unix socket path") ↔
      sizeof_sun_path ≤ path.length) := by
  constructor
  · intro hlen
    have hpack : sock_s_pack_sockaddr_un path =
        .ok (famBytes AF_UNIX ++ path ++
          List.replicate (sizeof_sun_path - path.length) 0) := by
      simp only [sock_s_pack_sockaddr_un, if_neg hnz, if_neg (by omega :
        ¬ sizeof_sun_path ≤ path.length)]
    refine ⟨hpack, ?_⟩
    have hbuf : famBytes AF_UNIX ++ path ++
        List.replicate (sizeof_sun_path - path.length) 0 =
        1 :: 0 :: (path ++ List.replicate (sizeof_sun_path - path.length) 0) := by
      simp [famBytes, AF_UNIX]
    rw [hbuf]
    have hblen : (1 :: 0 :: (path ++
        List.replicate (sizeof_sun_path - path.length) 0)).length =
        sizeof_sockaddr_un := by
      simp [sizeof_sockaddr_un, sizeof_sun_path] at *
      omega
    have hpath : ∀ b ∈ path, (fun b => decide (b ≠ 0)) b = true := by
      intro b hb
      simp only [decide_eq_true_eq]
      intro h0
      exact hnz (h0 ▸ hb)
    have htw : (path ++ List.replicate (sizeof_sun_path - path.length) 0).takeWhile
        (fun b => b ≠ 0) = path := by
      rw [List.takeWhile_append_of_pos hpath, List.takeWhile_replicate]
      simp
    have hred := unpack_un_eq
      (1 :: 0 :: (path ++ List.replicate (sizeof_sun_path - path.length) 0))
      (by rw [hblen]; decide) (by simp [famOf, AF_UNIX])
      (by rw [hblen]; decide)
    rw [hred]
    have hdrop : (1 :: 0 :: (path ++
        List.replicate (sizeof_sun_path - path.length) 0)).drop 2 =
        path ++ List.replicate (sizeof_sun_path - path.length) 0 := rfl
    rw [hdrop, htw, if_neg, if_pos]
    · rw [hblen]; decide
    · rw [hblen]
      intro ⟨_, _, hcon⟩
      have : path.length = 108 := by
        simp [sizeof_sockaddr_un] at hcon
        omega
      simp [sizeof_sun_path] at hlen
      omega
  · constructor
    · intro h
      by_cases hc : sizeof_sun_path ≤ path.length
      · exact hc
      · exfalso
        rw [sock_s_pack_sockaddr_un, if_neg hnz, if_neg hc] at h
        exact absurd h (by simp)
    · intro h
      rw [sock_s_pack_sockaddr_un, if_neg hnz, if_pos h]

/--
Witness for C3 at the concrete path "/tmp" (bytes [47, 116, 109, 112]).
-/
theorem C3_pack_unpack_roundtrip_witness :
    sock_s_pack_sockaddr_un [47, 116, 109, 112] =
      .ok (famBytes AF_UNIX ++ [47, 116, 109, 112] ++
        List.replicate (sizeof_sun_path - 4) 0) ∧
    sock_s_unpack_sockaddr_un (famBytes AF_UNIX ++ [47, 116, 109, 112] ++
        List.replicate (sizeof_sun_path - 4) 0) = .ok [47, 116, 109, 112] :=
  (C3_pack_unpack_roundtrip [47, 116, 109, 112] (by decide)).1 (by decide)

/--
C1: when the first socketpair(2) issue fails with EMFILE or ENFILE,
Socket.pair runs rb_gc exactly once and reissues the syscall exactly
once, and a second failure raises the Errno exception naming
"socketpair(2)"; any other errno on the first issue raises immediately
with no gc run and no reissue; a first success issues the syscall once.
The other syscall wrappers of the file — socket creation, bind, listen,
the non-blocking connect — issue their syscall exactly once whatever
the outcome: the socketpair reclaim-and-retry is the only built-in
retry.
-/
theorem C1_socketpair_single_retry (sys : Nat → SpOutcome)
    (ssys bsys lsys : Nat → SysOutcome) (csys : Bool → Nat → SysOutcome)
    (st : FdState) :
    (∀ e, sys 0 = .err e → (e = EMFILE ∨ e = ENFILE) →
      (sock_s_socketpair sys).gcRuns = 1 ∧
      (sock_s_socketpair sys).syscalls = 2 ∧
      (∀ a b, sys 1 = .ok a b → (sock_s_socketpair sys).result = .ok (a, b)) ∧
      (∀ e2, sys 1 = .err e2 → (sock_s_socketpair sys).result =
        .error (.syscallError "socketpair(2)" e2))) ∧
    (∀ e, sys 0 = .err e → ¬ (e = EMFILE ∨ e = ENFILE) →
      (sock_s_socketpair sys).gcRuns = 0 ∧
      (sock_s_socketpair sys).syscalls = 1 ∧
      (sock_s_socketpair sys).result =
        .error (.syscallError "socketpair(2)" e)) ∧
    (∀ a b, sys 0 = .ok a b →
      (sock_s_socketpair sys).gcRuns = 0 ∧
      (sock_s_socketpair sys).syscalls = 1 ∧
      (sock_s_socketpair sys).result = .ok (a, b)) ∧
    ( sock_initialize ssys).syscalls = 1 ∧
    (sock_bind bsys).syscalls = 1 ∧
    (sock_listen lsys).syscalls = 1 ∧
    (sock_connect_nonblock st csys).2.syscalls = 1 := by
  refine ⟨?_, ?_, ?_, ?_, ?_, ?_, ?_⟩
  · intro e h0 hmem
    refine ⟨?_, ?_, ?_, ?_⟩
    · simp only [sock_s_socketpair, h0, if_pos hmem]
      cases h1 : sys 1 <;> simp
    · simp only [sock_s_socketpair, h0, if_pos hmem]
      cases h1 : sys 1 <;> simp
    · intro a b h1
      simp only [sock_s_socketpair, h0, if_pos hmem, h1]
    · intro e2 h1
      simp only [sock_s_socketpair, h0, if_pos hmem, h1]
  · intro e h0 hmem
    simp [sock_s_socketpair, h0, hmem]
  · intro a b h0
    simp [sock_s_socketpair, h0]
  · cases h : ssys 0 <;> simp [ sock_initialize, h]
  · cases h : bsys 0 <;> simp [sock_bind, h]
  · cases h : lsys 0 <;> simp [sock_listen, h]
  · cases h : csys true 0 <;> simp [sock_connect_nonblock, h]

/--
Witness for C1: a first issue failing with EMFILE followed by a
successful reissue yields the pair with one gc run and two syscalls; the
single-syscall wrappers each issue once.
-/
theorem C1_socketpair_single_retry_witness :
    (sock_s_socketpair
        (fun n => if n = 0 then .err EMFILE else .ok 3 4)).gcRuns = 1 ∧
    (sock_s_socketpair
        (fun n => if n = 0 then .err EMFILE else .ok 3 4)).result = .ok (3, 4) ∧
    (sock_bind (fun _ => .err 13)).syscalls = 1 := by
  have h := C1_socketpair_single_retry
    (fun n => if n = 0 then .err EMFILE else .ok 3 4)
    (fun _ => .ok 5) (fun _ => .err 13) (fun _ => .ok 0)
    (fun _ _ => .ok 0) ⟨false⟩
  exact ⟨(h.1 EMFILE rfl (Or.inl rfl)).1,
    (h.1 EMFILE rfl (Or.inl rfl)).2.2.1 3 4 rfl,
    h.2.2.2.2.1⟩

/--
C5 counterexample: the claim says a connect(2) failure with EINPROGRESS
is returned to the caller as a distinguished non-fatal value and not
raised; at the concrete oracle that always reports EINPROGRESS, the
operation raises (rb_sys_fail) the Errno exception instead of returning
a value.
-/
theorem C5_einprogress_counterexample :
    (sock_connect_nonblock ⟨false⟩ (fun _ _ => .err EINPROGRESS)).2.result =
      .error (.syscallError "connect(2)" EINPROGRESS) := rfl

/--
C5 amended: connect_nonblock marks the descriptor O_NONBLOCK first and
then issues connect(2) exactly once; every syscall failure — EINPROGRESS
included — is raised as the Errno exception naming "connect(2)" (the
documentation of the method states it may raise any connect(2) error,
including Errno::EINPROGRESS); a non-negative syscall return n (0 for
connect) is returned as the value.
-/
theorem C5_connect_nonblock_amended (st : FdState)
    (sys : Bool → Nat → SysOutcome) :
    (sock_connect_nonblock st sys).1.nonblock = true ∧
    (sock_connect_nonblock st sys).2.syscalls = 1 ∧
    (∀ n, sys true 0 = .ok n →
      (sock_connect_nonblock st sys).2.result = .ok n) ∧
    (∀ e, sys true 0 = .err e →
      (sock_connect_nonblock st sys).2.result =
        .error (.syscallError "connect(2)" e)) := by
  refine ⟨?_, ?_, ?_, ?_⟩
  · cases h : sys true 0 <;> simp [sock_connect_nonblock, h]
  · cases h : sys true 0 <;> simp [sock_connect_nonblock, h]
  · intro n h
    simp [sock_connect_nonblock, h]
  · intro e h
    simp [sock_connect_nonblock, h]

/--
Witness for C5 amended: on a successful connect the descriptor ends up
non-blocking and 0 is returned; on EINPROGRESS the Errno exception is
raised.
-/
theorem C5_connect_nonblock_amended_witness :
    (sock_connect_nonblock ⟨false⟩ (fun _ _ => .ok 0)).1.nonblock = true ∧
    (sock_connect_nonblock ⟨false⟩ (fun _ _ => .ok 0)).2.result = .ok 0 ∧
    (sock_connect_nonblock ⟨false⟩ (fun _ _ => .err EINPROGRESS)).2.result =
      .error (.syscallError "connect(2)" EINPROGRESS) := by
  refine ⟨(C5_connect_nonblock_amended ⟨false⟩ (fun _ _ => .ok 0)).1,
    (C5_connect_nonblock_amended ⟨false⟩ (fun _ _ => .ok 0)).2.2.1 0 rfl,
    (C5_connect_nonblock_amended ⟨false⟩
      (fun _ _ => .err EINPROGRESS)).2.2.2 EINPROGRESS rfl⟩

theorem getnameinfoLoop_all_ok {α β : Type} [DecidableEq β]
    (nameOf : α → Except Nat β) (hp : β) (l : List α)
    (h : ∀ r ∈ l, nameOf r = .ok hp) :
    getnameinfoLoop nameOf hp l = .ok hp := by
  induction l with
  | nil => rfl
  | cons r rs ih =>
    have hr := h r (List.mem_cons_self r rs)
    simp only [getnameinfoLoop, hr]
    rw [if_neg (by simp)]
    exact ih (fun x hx => h x (List.mem_cons_of_mem r hx))

theorem getnameinfoLoop_ambiguous {α β : Type} [DecidableEq β]
    (nameOf : α → Except Nat β) (hp : β) (l : List α)
    (hall : ∀ r ∈ l, ∃ hp2, nameOf r = .ok hp2)
    (hdiff : ∃ r ∈ l, nameOf r ≠ .ok hp) :
    getnameinfoLoop nameOf hp l =
      .error (.socketError "sockaddr resolved to multiple nodename") := by
  induction l with
  | nil => simp at hdiff
  | cons r rs ih =>
    obtain ⟨hp2, hr⟩ := hall r (List.mem_cons_self r rs)
    by_cases hne : hp2 = hp
    · subst hne
      simp only [getnameinfoLoop, hr]
      rw [if_neg (by simp)]
      apply ih (fun x hx => hall x (List.mem_cons_of_mem r hx))
      rcases hdiff with ⟨x, hx, hxne⟩
      rcases List.mem_cons.mp hx with h1 | h2
      · subst h1
        exact absurd hr hxne
      · exact ⟨x, h2, hxne⟩
    · simp only [getnameinfoLoop, hr]
      rw [if_pos hne]

/--
C6: once the head candidate of the getaddrinfo expansion of the
sockaddr input resolved to the pair hp, the reverse lookup returns hp
exactly when every candidate resolves to hp; if every candidate
resolves but some candidate yields a different pair, the SocketError
"sockaddr resolved to multiple nodename" is raised.
-/
theorem C6_getnameinfo_ambiguity {α β : Type} [DecidableEq β]
    (nameOf : α → Except Nat β) (first : α) (rest : List α) (hp : β)
    (hfirst : nameOf first = .ok hp) :
    ((∀ r ∈ rest, nameOf r = .ok hp) →
      sock_s_getnameinfo nameOf first rest = .ok hp) ∧
    ((∀ r ∈ rest, ∃ hp2, nameOf r = .ok hp2) →
      (∃ r ∈ rest, nameOf r ≠ .ok hp) →
      sock_s_getnameinfo nameOf first rest =
        .error (.socketError "sockaddr resolved to multiple nodename")) := by
  constructor
  · intro hall
    simp only [sock_s_getnameinfo, hfirst]
    exact getnameinfoLoop_all_ok nameOf hp rest hall
  · intro hall hdiff
    simp only [sock_s_getnameinfo, hfirst]
    exact getnameinfoLoop_ambiguous nameOf hp rest hall hdiff

/--
Witness for C6: with three candidates all resolving to the pair
(7, 80), the common pair is returned; if the last candidate resolves to
(9, 80) instead, the ambiguity SocketError is raised.
-/
theorem C6_getnameinfo_ambiguity_witness :
    sock_s_getnameinfo (fun _ : Nat => Except.ok ((7, 80) : Nat × Nat))
      0 [1, 2] = .ok (7, 80) ∧
    sock_s_getnameinfo
      (fun r : Nat => Except.ok (if r = 2 then ((9, 80) : Nat × Nat) else (7, 80)))
      0 [1, 2] =
      .error (.socketError "sockaddr resolved to multiple nodename") := by
  constructor
  · exact (C6_getnameinfo_ambiguity
      (fun _ : Nat => Except.ok ((7, 80) : Nat × Nat)) 0 [1, 2] (7, 80)
      rfl).1 (by intro r hr; rfl)
  · exact (C6_getnameinfo_ambiguity
      (fun r : Nat => Except.ok (if r = 2 then ((9, 80) : Nat × Nat) else (7, 80)))
      0 [1, 2] (7, 80) rfl).2
      (by intro r hr; exact ⟨_, rfl⟩) ⟨2, by decide⟩

/--
C9: a port argument outside [0, 65535] makes getservbyport raise a
RangeError naming the direction of the overflow, independently of the
service database (so before any lookup); for a port inside the range
the lookup is issued with the port converted to network byte order
(htons of the 16-bit value).
-/
theorem C9_getservbyport_range (db db2 : Nat → List Char → Option (List Char))
    (port : Int) (proto : Option (List Char)) :
    (65535 < port →
      sock_s_getservbyport db port proto =
        .error (.rangeError "integer too big to convert into int16_t") ∧
      sock_s_getservbyport db port proto =
        sock_s_getservbyport db2 port proto) ∧
    (port < 0 →
      sock_s_getservbyport db port proto =
        .error (.rangeError "integer too small to convert into int16_t") ∧
      sock_s_getservbyport db port proto =
        sock_s_getservbyport db2 port proto) ∧
    (0 ≤ port → port ≤ 65535 →
      sock_s_getservbyport db port proto =
        match db (htons16 port.toNat) (proto.getD tcp) with
        | some name => .ok name
        | none => .error (.socketError "no such service for port")) := by
  refine ⟨?_, ?_, ?_⟩
  · intro hbig
    have hne : port ≠ port % 65536 := by omega
    have hpos : 0 < port := by omega
    constructor <;>
      simp [sock_s_getservbyport, hne, hpos]
  · intro hneg
    have hne : port ≠ port % 65536 := by omega
    have hpos : ¬ 0 < port := by omega
    constructor <;>
      simp [sock_s_getservbyport, hne, hpos]
  · intro h0 h1
    have heq : port = port % 65536 := by omega
    simp only [sock_s_getservbyport, if_neg (by omega : ¬ port ≠ port % 65536)]

/--
Witness for C9 at the concrete ports 70000 (too big), -1 (too small)
and 80 (in range, looked up at htons(80) = 20480).
-/
theorem C9_getservbyport_range_witness :
    sock_s_getservbyport (fun _ _ => none) 70000 none =
      .error (.rangeError "integer too big to convert into int16_t") ∧
    sock_s_getservbyport (fun _ _ => none) (-1) none =
      .error (.rangeError "integer too small to convert into int16_t") ∧
    sock_s_getservbyport
      (fun k _ => if k = 20480 then some ['w', 'w', 'w'] else none) 80 none =
      .ok ['w', 'w', 'w'] := by
  refine ⟨((C9_getservbyport_range (fun _ _ => none) (fun _ _ => none)
      70000 none).1 (by decide)).1,
    ((C9_getservbyport_range (fun _ _ => none) (fun _ _ => none)
      (-1) none).2.1 (by decide)).1, ?_⟩
  have h := (C9_getservbyport_range
    (fun k _ => if k = 20480 then some ['w', 'w', 'w'] else none)
    (fun _ _ => none) 80 none).2.2 (by decide) (by decide)
  simpa using h

/--
C10: with no explicit family argument, gethostbyaddr infers the family
from the address bytes — AF_INET6 when the address is exactly 16 bytes
long (INET6 being available on this platform), AF_INET otherwise — and
an explicit family argument always overrides the inference through
family_arg; the lookup outcome at that family is returned, a NULL
hostent raising a SocketError.
-/
theorem C10_gethostbyaddr_family {φ : Type} (famArg : φ → Int)
    (gha : List Nat → Int → Option Hostent) (addr : List Nat) :
    (addr.length = 16 →
      sock_s_gethostbyaddr famArg gha addr none =
        match gha addr (AF_INET6 : Int) with
        | some h => .ok h
        | none => .error (.socketError "host not found")) ∧
    (addr.length ≠ 16 →
      sock_s_gethostbyaddr famArg gha addr none =
        match gha addr (AF_INET : Int) with
        | some h => .ok h
        | none => .error (.socketError "host not found")) ∧
    (∀ f, sock_s_gethostbyaddr famArg gha addr (some f) =
      match gha addr (famArg f) with
      | some h => .ok h
      | none => .error (.socketError "host not found")) := by
  refine ⟨?_, ?_, ?_⟩
  · intro h16
    simp [sock_s_gethostbyaddr, h16]
  · intro h16
    simp [sock_s_gethostbyaddr, h16]
  · intro f
    rfl

/--
Witness for C10: a 16-byte address with no family argument is looked up
at AF_INET6, a 4-byte one at AF_INET, and an explicit family argument 2
overrides the 16-byte inference.
-/
theorem C10_gethostbyaddr_family_witness :
    sock_s_gethostbyaddr (fun f : Int => f)
      (fun _ t => if t = 10 then some ⟨['h'], [], 10, []⟩ else none)
      (List.replicate 16 0) none = .ok ⟨['h'], [], 10, []⟩ ∧
    sock_s_gethostbyaddr (fun f : Int => f)
      (fun _ t => if t = 2 then some ⟨['h'], [], 2, []⟩ else none)
      [127, 0, 0, 1] none = .ok ⟨['h'], [], 2, []⟩ ∧
    sock_s_gethostbyaddr (fun f : Int => f)
      (fun _ t => if t = 10 then some ⟨['h'], [], 10, []⟩ else none)
      (List.replicate 16 0) (some (2 : Int)) =
      .error (.socketError "host not found") := by
  refine ⟨?_, ?_, ?_⟩
  · have h := (C10_gethostbyaddr_family (fun f : Int => f)
      (fun _ t => if t = 10 then some ⟨['h'], [], 10, []⟩ else none)
      (List.replicate 16 0)).1 (by decide)
    simpa using h
  · have h := (C10_gethostbyaddr_family (fun f : Int => f)
      (fun _ t => if t = 2 then some ⟨['h'], [], 2, []⟩ else none)
      [127, 0, 0, 1]).2.1 (by decide)
    simpa using h
  · have h := (C10_gethostbyaddr_family (fun f : Int => f)
      (fun _ t => if t = 10 then some ⟨['h'], [], 10, []⟩ else none)
      (List.replicate 16 0)).2.2 (2 : Int)
    simpa using h

/--
The reading of claim C7 taken from the words of the spec, for comparison
with the parse the code performs: a service name that is a literal
decimal port number — a non-empty digit string — denotes its decimal
value; any other name is not a decimal numeral.
-/
def decimalValue (s : List Char) : Option Nat :=
  if s ≠ [] ∧ s.all (fun c => '0' ≤ c && c ≤ '9') then
    some (s.foldl (fun a c => a * 10 + (c.toNat - 48)) 0)
  else none

theorem digitVal_digit (x : Char) (h : ('0' ≤ x && x ≤ '9') = true) :
    digitVal x = x.toNat - 48 := by
  simp only [digitVal]
  rw [if_pos h]

theorem int32ofUlong_small (n : Nat) (h : n < 2 ^ 31) :
    int32ofUlong n = (n : Int) := by
  simp only [int32ofUlong]
  rw [Nat.mod_eq_of_lt (by omega)]
  rw [if_pos h]

theorem strtoul0_plain_decimal (c : Char) (cs : List Char)
    (hdig : ∀ x ∈ c :: cs, ('0' ≤ x && x ≤ '9') = true)
    (h0 : c ≠ '0') :
    strtoul0 (c :: cs) =
      ⟨if ULONG_MAX < (c :: cs).foldl (fun a x => a * 10 + digitVal x) 0
        then ULONG_MAX else (c :: cs).foldl (fun a x => a * 10 + digitVal x) 0,
       (c :: cs).length⟩ := by
  have hc := hdig c (List.mem_cons_self c cs)
  have hsp : ¬ isCSpace c = true := by
    intro h
    simp only [isCSpace, Bool.or_eq_true, decide_eq_true_eq] at h
    rcases h with ((((h | h) | h) | h) | h) | h <;>
      (subst h; exact absurd hc (by decide))
  have hminus : c ≠ '-' := fun h => by subst h; exact absurd hc (by decide)
  have hplus : c ≠ '+' := fun h => by subst h; exact absurd hc (by decide)
  simp only [strtoul0, List.takeWhile_cons_of_neg hsp, List.length_nil,
    List.drop_zero, List.head?_cons]
  simp only [Option.some.injEq, hminus, hplus, or_self, if_false, List.drop_zero,
    List.head?_cons, h0, decide_False, Bool.false_and, Bool.and_false,
    Bool.not_false, Bool.true_and, Bool.false_eq_true, if_false]
  rw [List.takeWhile_eq_self_iff.mpr hdig]
  simp only [List.isEmpty_cons, Bool.false_eq_true, if_false, List.length_cons,
    Nat.zero_add, Nat.add_zero]

/--
C7 counterexample: with no database entry, the name "010" is a literal
decimal numeral denoting 10, but getservbyname parses it with
STRTOUL(name, &end, 0) — octal because of the leading zero — and
returns 8; the name "08" is a decimal numeral denoting 8, yet the
base-0 parse stops at the non-octal digit 8 and the unknown-service
SocketError is raised even though the name is a valid number.
-/
theorem C7_decimal_fallback_counterexample :
    decimalValue ['0', '1', '0'] = some 10 ∧
    sock_s_getservbyname (fun _ _ => none) ['0', '1', '0'] none = .ok 8 ∧
    (8 : Int) ≠ 10 ∧
    decimalValue ['0', '8'] = some 8 ∧
    sock_s_getservbyname (fun _ _ => none) ['0', '8'] none =
      .error (.socketError "no such service") := by
  exact ⟨by decide, by decide, by decide, by decide, by decide⟩

/--
C7 amended: getservbyname returns the registered port on a database
hit; on a miss it falls back to parsing the name as a C numeric literal
(strtoul with base 0: optional sign, 0x-prefixed hexadecimal,
0-prefixed octal, decimal otherwise) and returns the parsed value
converted to a C int, raising the unknown-service SocketError exactly
when the parse does not consume the whole name; in particular a decimal
numeral with no leading zero (and value in int range) yields its decimal
value.  The inverse getservbyport has no literal fallback and raises the
unknown-service SocketError on every in-range port with no database
entry.  In both directions the protocol defaults to "tcp".
-/
theorem C7_service_resolution_amended
    (db : List Char → List Char → Option Nat)
    (dbp : Nat → List Char → Option (List Char))
    (service : List Char) (proto : Option (List Char)) (port : Int) :
    (∀ p, db service (proto.getD tcp) = some p →
      sock_s_getservbyname db service proto = .ok (p : Int)) ∧
    (db service (proto.getD tcp) = none →
      (strtoul0 service).endPos = service.length →
      sock_s_getservbyname db service proto =
        .ok (int32ofUlong (strtoul0 service).val)) ∧
    (db service (proto.getD tcp) = none →
      (strtoul0 service).endPos ≠ service.length →
      sock_s_getservbyname db service proto =
        .error (.socketError "no such service")) ∧
    (∀ n : Nat, db service (proto.getD tcp) = none →
      decimalValue service = some n → service.head? ≠ some '0' →
      n < 2 ^ 31 →
      sock_s_getservbyname db service proto = .ok (n : Int)) ∧
    (sock_s_getservbyname db service none =
      sock_s_getservbyname db service (some tcp)) ∧
    (sock_s_getservbyport dbp port none =
      sock_s_getservbyport dbp port (some tcp)) ∧
    (0 ≤ port → port ≤ 65535 →
      dbp (htons16 port.toNat) (proto.getD tcp) = none →
      sock_s_getservbyport dbp port proto =
        .error (.socketError "no such service for port")) := by
  refine ⟨?_, ?_, ?_, ?_, rfl, rfl, ?_⟩
  · intro p h
    simp [sock_s_getservbyname, h]
  · intro hdb hend
    simp [sock_s_getservbyname, hdb, hend]
  · intro hdb hend
    simp [sock_s_getservbyname, hdb, hend]
  · intro n hdb hdec hhead hlt
    by_cases hcond : service ≠ [] ∧ service.all (fun c => '0' ≤ c && c ≤ '9')
    · obtain ⟨c, cs, rfl⟩ := List.exists_cons_of_ne_nil hcond.1
      have hdig : ∀ x ∈ c :: cs, ('0' ≤ x && x ≤ '9') = true :=
        List.all_eq_true.mp hcond.2
      have h0 : c ≠ '0' := by
        intro h
        exact hhead (by rw [List.head?_cons, h])
      have hfold : (c :: cs).foldl (fun a x => a * 10 + (x.toNat - 48)) 0 = n := by
        rw [decimalValue, if_pos hcond] at hdec
        exact Option.some.inj hdec
      have hfold2 : (c :: cs).foldl (fun a x => a * 10 + digitVal x) 0 = n := by
        have hext := List.foldl_ext (fun a x => a * 10 + digitVal x)
          (fun a x => a * 10 + (x.toNat - 48)) 0
          (fun a x hx => by
            show a * 10 + digitVal x = a * 10 + (x.toNat - 48)
            rw [digitVal_digit x (hdig x hx)])
        rw [hext]
        exact hfold
      have hstr := strtoul0_plain_decimal c cs hdig h0
      have hclamp : ¬ ULONG_MAX < (c :: cs).foldl
          (fun a x => a * 10 + digitVal x) 0 := by
        rw [hfold2]
        have : (2 : Nat) ^ 31 ≤ ULONG_MAX := by decide
        omega
      have hval : (strtoul0 (c :: cs)).val = n := by
        rw [hstr]
        simp only [if_neg hclamp]
        exact hfold2
      have hend : (strtoul0 (c :: cs)).endPos = (c :: cs).length := by
        rw [hstr]
      simp only [sock_s_getservbyname, hdb]
      rw [if_neg (by rw [hend]; exact fun h => h rfl)]
      rw [hval, int32ofUlong_small n hlt]
    · rw [decimalValue, if_neg hcond] at hdec
      exact absurd hdec (by simp)
  · intro h0 h1 hmiss
    have heq : port % 65536 = port := by omega
    simp [sock_s_getservbyport, heq, hmiss]

/--
Witness for C7 amended at concrete inputs: with an empty database the
name "80" resolves to port 80, the name "ab" raises unknown-service,
and getservbyport 80 raises unknown-service with no fallback.
-/
theorem C7_service_resolution_amended_witness :
    sock_s_getservbyname (fun _ _ => none) ['8', '0'] none = .ok 80 ∧
    sock_s_getservbyname (fun _ _ => none) ['a', 'b'] none =
      .error (.socketError "no such service") ∧
    sock_s_getservbyport (fun _ _ => none) 80 none =
      .error (.socketError "no such service for port") := by
  have h := C7_service_resolution_amended (fun _ _ => none) (fun _ _ => none)
    ['8', '0'] none 80
  have h2 := C7_service_resolution_amended (fun _ _ => none) (fun _ _ => none)
    ['a', 'b'] none 80
  refine ⟨?_, h2.2.2.1 rfl (by decide),
    h.2.2.2.2.2.2 (by decide) (by decide) rfl⟩
  have hd := h.2.2.2.1 80 rfl (by decide) (by decide) (by decide)
  simpa using hd

end RSocket
